import Mathlib

/-!
Verification development for the JubitsGPT client.

The definitions below are a shallow embedding of the session/generation
orchestration core of the repository:

* `services/gemini` (src/unnamed/part_000): credential store, lazy client
  factory, session manager (`initializeChat`, `getChatSession`), payload
  construction (`sendMessageStream`), video generation with polling
  (`generateVideoContent`), and `enhancePrompt`;
* `ChatInterface` (src/unnamed/part_001): the mount-time history seeding,
  the send pipeline (`handleSend`), and the cooperative stream
  cancellation (`handleStopGeneration`).

The backend SDK (`@google/genai`) is not part of the repository; its
session objects are modelled from the spec's backend boundary (§6):
`createSession(model, systemInstruction, history)` holds an ordered turn
history, `getHistory` round-trips the turns accepted by the backend, and
a successful streaming send appends the user turn and the model turn.
JavaScript truthiness of strings (`s || t`) is modelled by `jsOrElse`:
`null`/`undefined` becomes `none` and the empty string is falsy.
-/

/-- Message roles, from `types.ts` (`Role = 'user' | 'model'`). -/
inductive Role where
  | user
  | model
deriving DecidableEq, Repr

/-- One history turn as handed to the backend (`{ role, parts: [{ text }] }`
in `ChatInterface`'s `historyForGemini`); the single text part is kept as a
plain string. -/
structure GTurn where
  role : Role
  text : String
deriving DecidableEq, Repr

/-- A backend chat session. Modelled from the spec: the `Chat` object of the
SDK is not in the repository; per §6 it is `createSession(model,
systemInstruction, history)` owning an ordered turn history. -/
structure Session where
  model : String
  systemInstruction : String
  history : List GTurn
deriving DecidableEq, Repr

/-- Errors of the service layer.  `missingKey` is the
"API Key is missing" error thrown by `getAiClient`; `exportFailed` models a
rejection of `chatSession.getHistory()`; `streamFailed` models a rejected
streaming call. -/
inductive GErr where
  | missingKey
  | exportFailed
  | streamFailed
deriving DecidableEq, Repr

/-- The module-level mutable state of `services/gemini`
(src/unnamed/part_000 lines 5, 33-34) together with the credential
sources read by `getStoredApiKey`: the `localStorage` entry
`gemini_api_key` and `process.env.API_KEY`.  A cached client is modelled
by the key string it was constructed with. -/
structure ServiceState where
  aiClient : Option String
  chatSession : Option Session
  currentModel : String
  localKey : Option String
  envKey : Option String
deriving DecidableEq, Repr

/-- JavaScript `a || b` on an optional string: `null`/`undefined` and the
empty string fall through to `b`. -/
def jsOrElse (a : Option String) (b : String) : String :=
  match a with
  | some v => if v = "" then b else v
  | none => b

/-- Model of `getStoredApiKey` (part_000 lines 7-12), browser branch:
`localStorage.getItem('gemini_api_key') || process.env.API_KEY || ''`. -/
def getStoredApiKey (st : ServiceState) : String :=
  jsOrElse st.localKey (jsOrElse st.envKey "")

/-- Model of `setStoredApiKey` (part_000 lines 14-19), browser branch: stores the key
and sets `aiClient = null` to force re-initialization. -/
def setStoredApiKey (st : ServiceState) (key : String) : ServiceState :=
  { st with localKey := some key, aiClient := none }

/-- Model of `getAiClient` (part_000 lines 21-30): returns the cached client if any;
otherwise reads the stored key, throws the missing-key error if it is
empty, and constructs (and caches) a client bound to the key. -/
def getAiClient (st : ServiceState) : Except GErr (String × ServiceState) :=
  match st.aiClient with
  | some c => .ok (c, st)
  | none =>
    if getStoredApiKey st = "" then .error .missingKey
    else .ok (getStoredApiKey st, { st with aiClient := some (getStoredApiKey st) })

def DEFAULT_SYSTEM_INSTRUCTION : String :=
  "You are JubitsGPT, a highly advanced, witty, and helpful AI assistant. You provide concise, accurate answers and can format code beautifully using Markdown."

def CODE_SYSTEM_INSTRUCTION : String :=
  "You are JubitsGPT, an expert software engineer and coding assistant. You provide clean, efficient, secure, and well-documented code. You explain complex concepts simply and prefer modern best practices."

/-- The system instruction chosen by `initializeChat` (part_000 line 41):
the code instruction for `gemini-3-pro-preview`, the default otherwise. -/
def instrFor (model : String) : String :=
  if model = "gemini-3-pro-preview" then CODE_SYSTEM_INSTRUCTION
  else DEFAULT_SYSTEM_INSTRUCTION

/-- Attachment kinds, from `types.ts` (`'image' | 'file' | 'video'`). -/
inductive AKind where
  | image
  | file
  | video
deriving DecidableEq, Repr

/-- An attachment, from `types.ts` (the optional preview-url/size/time
fields are omitted; they do not reach the backend payload). -/
structure Attachment where
  type : AKind
  mimeType : String
  data : String
  name : String
deriving DecidableEq, Repr

/-- One part of a multipart message: `{ text }` or
`{ inlineData: { mimeType, data } }` (part_000 lines 85, 90-95). -/
inductive MPart where
  | text (t : String)
  | inlineData (mimeType data : String)
deriving DecidableEq, Repr

/-- The `message` field passed to `session.sendMessageStream`: a plain
string, or an array of parts when attachments are present. -/
inductive MessageContent where
  | str (s : String)
  | parts (l : List MPart)
deriving DecidableEq, Repr

/-- JavaScript `String.prototype.trim()`: strips leading and trailing
whitespace characters (modelled over the character list, so that it
evaluates by kernel reduction). -/
def jsTrim (s : String) : String :=
  ⟨((s.data.dropWhile Char.isWhitespace).reverse.dropWhile Char.isWhitespace).reverse⟩

/-- The payload construction of `sendMessageStream` (part_000 lines 77-99):
with a non-empty attachment list, a text part (pushed only when the trimmed
message is truthy, carrying the untrimmed message) followed by one
inline-data part per attachment in order; otherwise the plain string. -/
def buildMessageContent (message : String) (attachments : List Attachment) : MessageContent :=
  if attachments ≠ [] then
    .parts ((if jsTrim message ≠ "" then [.text message] else []) ++
            attachments.map (fun a => .inlineData a.mimeType a.data))
  else .str message

/-- Backend calls issued by the service layer, recorded as an effect log
(used to state that rejected sends issue no backend call). -/
inductive BCall where
  | createSession (model systemInstruction : String) (history : List GTurn)
  | stream (model : String) (payload : MessageContent)
deriving DecidableEq, Repr

/-- Model of `initializeChat` (part_000 lines 39-52): obtains a client (which may
throw the missing-key error), builds a session with the instruction matched
to the model, stores it as the active session, and records the model. -/
def initializeChat (st : ServiceState) (model : String) (history : List GTurn) :
    Except GErr (Session × ServiceState) × List BCall :=
  match getAiClient st with
  | .error e => (.error e, [])
  | .ok (_, st') =>
    (.ok (⟨model, instrFor model, history⟩,
          { st' with chatSession := some ⟨model, instrFor model, history⟩,
                     currentModel := model }),
     [.createSession model (instrFor model) history])

/-- Model of `chatSession.getHistory()`. Modelled from the spec (§4.3/§6): the SDK
call either faithfully round-trips the turns accepted by the backend or
rejects; the `exportOk` oracle chooses which. -/
def getHistoryM (s : Session) (exportOk : Bool) : Except GErr (List GTurn) :=
  if exportOk then .ok s.history else .error .exportFailed

/-- Model of `getChatSession` (part_000 lines 54-72): with an active session and a
different desired model, tries to export the history and re-initialize with
it, falling back to a fresh empty-history session if anything in the `try`
block throws; with no active session, initializes fresh; otherwise returns
the active session unchanged. -/
def getChatSession (st : ServiceState) (exportOk : Bool) (desiredModel : String) :
    Except GErr (Session × ServiceState) × List BCall :=
  match st.chatSession with
  | some s =>
    if st.currentModel ≠ desiredModel then
      match getHistoryM s exportOk with
      | .ok h =>
        match initializeChat st desiredModel h with
        | (.ok r, l) => (.ok r, l)
        | (.error _, l) =>
          match initializeChat st desiredModel [] with
          | (r₂, l₂) => (r₂, l ++ l₂)
      | .error _ => initializeChat st desiredModel []
    else (.ok (s, st), [])
  | none => initializeChat st desiredModel []

/-- Model of `enhancePrompt` (part_000 lines 221-235), after the backend call: the
response's text field (absent or a string) is returned, falling back to the
original input via `response.text || input`. -/
def enhancePrompt (responseText : Option String) (input : String) : String :=
  jsOrElse responseText input

/-- Credential availability: a cached client exists or the stored key is
non-empty; under this condition `getAiClient` cannot throw. -/
def keyAvail (st : ServiceState) : Bool :=
  st.aiClient.isSome || getStoredApiKey st ≠ ""

/-- A video operation as observed by the polling loop: the `done` flag and
the result URI `operation.response?.generatedVideos?.[0]?.video?.uri`. -/
structure VideoOp where
  done : Bool
  uri : Option String
deriving DecidableEq, Repr

/-- Video pipeline errors: "Failed to generate video." and
"Failed to download video." (part_000 lines 187, 191). -/
inductive VErr where
  | generation
  | download
deriving DecidableEq, Repr

/-- The normalized `{ text, attachments }` result shape. -/
structure GenResult where
  text : String
  attachments : List Attachment
deriving DecidableEq, Repr

/-- The polling loop of `generateVideoContent` (part_000 lines 179-182):
`op` is the operation last observed (initially the result of
`generateVideos`), `polls` the successive responses of
`getVideosOperation`.  Returns the final operation together with the
number of `done`-flag checks and the number of poll calls made; `none`
when the supplied responses are exhausted with `done` still false (the
real loop would still be waiting). -/
def pollVideo (op : VideoOp) : List VideoOp → Option (VideoOp × Nat × Nat)
  | [] => if op.done then some (op, 1, 0) else none
  | o :: rest =>
    if op.done then some (op, 1, 0)
    else
      match pollVideo o rest with
      | some (f, c, p) => some (f, c + 1, p + 1)
      | none => none

/-- The full observation sequence of a video job: the operation returned by
`generateVideos` followed by the successive poll responses. -/
def pollVideoSeq : List VideoOp → Option (VideoOp × Nat × Nat)
  | [] => none
  | o :: rest => pollVideo o rest

/-- JavaScript falsiness of an optional string: `undefined`/`null` and the
empty string are falsy (the `!videoUri` test at part_000 line 186). -/
def jsFalsy : Option String → Bool
  | none => true
  | some s => s = ""

/-- Model of `generateVideoContent` (part_000 lines 155-207) after job creation,
driven by the observation sequence `seq` (creation response first), the
download outcome `fetchOk` and the downloaded `blob`; `toB64` abstracts
`blobToBase64` and `now` abstracts `Date.now()`.  A falsy result URI
(absent or the empty string, per `if (!videoUri)`) raises the generation
error before any download.  Returns the outcome together with the number
of status checks, poll calls, and download attempts; `none` when `seq`
never reports `done`. -/
def generateVideoContent (seq : List VideoOp) (fetchOk : Bool) (blob : String)
    (toB64 : String → String) (now : Nat) :
    Option (Except VErr GenResult × Nat × Nat × Nat) :=
  match pollVideoSeq seq with
  | none => none
  | some (f, checks, pcalls) =>
    if jsFalsy f.uri then some (.error .generation, checks, pcalls, 0)
    else
      if fetchOk then
        some (.ok ⟨"Video generated successfully.",
                   [⟨.video, "video/mp4", toB64 blob,
                     "generated-video-" ++ toString now ++ ".mp4"⟩]⟩,
              checks, pcalls, 1)
      else some (.error .download, checks, pcalls, 1)

/-- A UI message (`types.ts` `Message`), restricted to the fields the
orchestration core reads.  The id `'welcome'` of the placeholder turn is
encoded as `none`; ids produced by `crypto.randomUUID()` are encoded as
`some n` with a fresh counter value (faithful to UUIDs never colliding
with the literal string `'welcome'`). -/
structure Msg where
  id : Option Nat
  role : Role
  text : String
  isError : Bool
  isStreaming : Bool
deriving DecidableEq, Repr

/-- The mount-time filter of `ChatInterface` (part_001 line 57):
`initialMessages.filter(m => !m.isError && m.id !== 'welcome')`. -/
def validHistory (ms : List Msg) : List Msg :=
  ms.filter (fun m => !m.isError && m.id ≠ none)

/-- Model of `historyForGemini` (part_001 lines 59-62): each message becomes
`{ role, parts: [{ text }] }`. -/
def historyForGemini (ms : List Msg) : List GTurn :=
  ms.map (fun m => ⟨m.role, m.text⟩)

/-- The welcome placeholder message (part_001 lines 25-30). -/
def welcomeMsg : Msg :=
  ⟨none, .model, "Hello! I'm JubitsGPT. How can I help you today?", false, false⟩

/-- Combined state of the `ChatInterface` component and the service module:
the displayed message list, the service state, and the fresh-id counter. -/
structure AppState where
  svc : ServiceState
  msgs : List Msg
  nextId : Nat
deriving DecidableEq, Repr

/-- The mount effect of `ChatInterface` (part_001 lines 53-73): with a
non-empty initial message list whose valid (non-error, non-welcome) part is
non-empty, seeds a `gemini-2.5-flash` session with that history; otherwise
initializes a fresh default session; any initialization error is caught and
leaves the service state unchanged.  The message state starts as the
initial messages, or the single welcome placeholder when empty. -/
def mount (init : List Msg) (st : ServiceState) : AppState :=
  { svc :=
      (match
        (if init ≠ [] then
          (if validHistory init ≠ [] then
            initializeChat st "gemini-2.5-flash" (historyForGemini (validHistory init))
          else initializeChat st "gemini-2.5-flash" [])
        else initializeChat st "gemini-2.5-flash" []).1 with
      | .ok (_, st') => st'
      | .error _ => st),
    msgs := if init ≠ [] then init else [welcomeMsg],
    nextId := 0 }

/-- The model selected by `handleSend` (part_001 line 423) for a chat/code
send. -/
def modelFor (isCode : Bool) : String :=
  if isCode then "gemini-3-pro-preview" else "gemini-2.5-flash"

/-- One chat/code send, as driven by the UI: the mode, the export oracle
for a possible model switch, the raw input text, the attachments, and the
stream outcome (`some r` = the stream completes with accumulated text `r`;
`none` = the streaming call fails). -/
structure SendEv where
  isCode : Bool
  exportOk : Bool
  text : String
  atts : List Attachment
  reply : Option String
deriving DecidableEq, Repr

/-- The turns accepted by the backend over a sequence of sends: each
guard-passing send whose stream succeeds contributes its trimmed user turn
and the model turn, in order. -/
def acceptedOf : List SendEv → List GTurn
  | [] => []
  | e :: evs =>
    (if jsTrim e.text = "" ∧ e.atts = [] then []
     else
       match e.reply with
       | some r => [⟨.user, jsTrim e.text⟩, ⟨.model, r⟩]
       | none => []) ++ acceptedOf evs

/-- The generic error text of `handleSend`'s catch block (part_001 line
452); used when the failing stream's own message is not modelled. -/
def errorReplyText : String := "I encountered an error. Please try again."

/-- The API-key error text substituted by `handleSend` (part_001 line 455)
when the caught message mentions the API key. -/
def missingKeyText : String :=
  "Missing API Key. Please add your API_KEY to the environment variables."

/-- The error text displayed for a caught send error. -/
def errTextFor : GErr → String
  | .missingKey => missingKeyText
  | _ => errorReplyText

/-- Model of `setMessages(prev => prev.map(m => m.id === mid ? f m : m))`. -/
def updateMsg (ms : List Msg) (mid : Option Nat) (f : Msg → Msg) : List Msg :=
  ms.map (fun m => if m.id = mid then f m else m)

/-- One complete `handleSend` invocation in chat/code mode (part_001 lines
346-479), run to completion (the per-chunk intermediate states are
modelled separately by the stream controller below): the empty-input guard,
the user message and streaming bot placeholder, the session lookup (where
a model switch may replay history), the streaming call, and the
success/error message updates.  Returns the new state, a record
`(exportOk, replayed history)` when a model switch created a new session,
and the log of backend calls issued. -/
def sendStep (st : AppState) (e : SendEv) :
    AppState × Option (Bool × List GTurn) × List BCall :=
  if jsTrim e.text = "" ∧ e.atts = [] then (st, none, [])
  else
    let botId : Option Nat := some (st.nextId + 1)
    let msgs₁ := st.msgs ++
      [⟨some st.nextId, .user, jsTrim e.text, false, false⟩,
       ⟨some (st.nextId + 1), .model, "", false, true⟩]
    let modelName := modelFor e.isCode
    let replay : Option (Bool × List GTurn) :=
      match st.svc.chatSession with
      | some s =>
        if st.svc.currentModel ≠ modelName then
          some (e.exportOk, if e.exportOk then s.history else [])
        else none
      | none => none
    match getChatSession st.svc e.exportOk modelName with
    | (.error err, calls) =>
      ({ st with
          msgs := updateMsg msgs₁ botId
            (fun m => { m with isStreaming := false, isError := true,
                               text := errTextFor err }),
          nextId := st.nextId + 2 },
       none, calls)
    | (.ok (s, svc'), calls) =>
      match e.reply with
      | some r =>
        let s' : Session :=
          { s with history := s.history ++ [⟨.user, jsTrim e.text⟩, ⟨.model, r⟩] }
        ({ svc := { svc' with chatSession := some s' },
           msgs := updateMsg msgs₁ botId
             (fun m => { m with text := r, isStreaming := false }),
           nextId := st.nextId + 2 },
         replay, calls ++ [.stream modelName (buildMessageContent (jsTrim e.text) e.atts)])
      | none =>
        ({ svc := svc',
           msgs := updateMsg msgs₁ botId
             (fun m => { m with isStreaming := false, isError := true,
                                text := errorReplyText }),
           nextId := st.nextId + 2 },
         replay, calls ++ [.stream modelName (buildMessageContent (jsTrim e.text) e.atts)])

/-- Runs a sequence of sends, collecting every model-switch replay record. -/
def runEvents : AppState → List SendEv → AppState × List (Bool × List GTurn)
  | st, [] => (st, [])
  | st, e :: evs =>
    match sendStep st e with
    | (st', r, _) =>
      match runEvents st' evs with
      | (fin, rs) => (fin, r.toList ++ rs)

/-- State of the stream-consumption loop and the trailing bot message:
the accumulating buffer `fullText`, the displayed message text, the
message's streaming flag, the cancellation flag `abortControllerRef`, and
whether the loop has exited. -/
structure StreamSt where
  buf : String
  msgText : String
  streaming : Bool
  flag : Bool
  broken : Bool
deriving DecidableEq, Repr

/-- The state at the start of stream consumption: empty buffer, empty bot
message marked streaming, flag cleared (part_001 lines 357, 378-384, 425). -/
def initStream : StreamSt := ⟨"", "", true, false, false⟩

/-- One iteration of the consumption loop (part_001 lines 427-440): a chunk
is received; once the loop has exited further chunks are never pulled; the
flag is checked before processing and breaks the loop; a truthy chunk text
is appended to the buffer, which is published to the message. -/
def chunkStep (st : StreamSt) (t : String) : StreamSt :=
  if st.broken then st
  else if st.flag then { st with broken := true }
  else if t ≠ "" then { st with buf := st.buf ++ t, msgText := st.buf ++ t }
  else st

/-- Model of `handleStopGeneration` (part_001 lines 334-344): sets the cancellation
flag and, if the trailing model message is still streaming, appends the
stopped marker and clears its streaming flag. -/
def stopStep (st : StreamSt) : StreamSt :=
  if st.streaming then
    { st with flag := true, msgText := st.msgText ++ " [Stopped]", streaming := false }
  else { st with flag := true }

/-- Feeds a list of chunks to the consumption loop. -/
def runChunks : StreamSt → List String → StreamSt
  | st, [] => st
  | st, t :: ts => runChunks (chunkStep st t) ts

/-- The post-loop update (part_001 lines 442-446): the bot message's
streaming flag is cleared, its text untouched. -/
def finalizeStream (st : StreamSt) : StreamSt := { st with streaming := false }

/-- A complete cancelled-stream execution: the chunks `pre` arrive before
the user clicks stop, then `handleStopGeneration` runs at the suspension
point, then the chunks `post` arrive while the loop observes the flag. -/
def runStream (pre post : List String) : StreamSt :=
  finalizeStream (runChunks (stopStep (runChunks initStream pre)) post)

/-- Concatenation of a list of text deltas. -/
def concatAll : List String → String
  | [] => ""
  | t :: ts => t ++ concatAll ts

/-- Helper: the empty-input guard of `handleSend` (part_001 line 350). -/
theorem sendStep_guard (st : AppState) (e : SendEv)
    (hg : jsTrim e.text = "" ∧ e.atts = []) :
    sendStep st e = (st, none, []) := by
  simp [sendStep, hg.1, hg.2]

/-- C9: a send whose text is empty or whitespace-only and whose attachment
list is empty is rejected before any backend call: the combined UI/service
state is returned unchanged, no switch-replay occurs, the backend-call log
is empty, and no error is raised (the step is total and takes the early
`return`). -/
theorem claim_C9 (st : AppState) (e : SendEv)
    (ht : jsTrim e.text = "") (ha : e.atts = []) :
    sendStep st e = (st, none, []) :=
  sendStep_guard st e ⟨ht, ha⟩

def appW : AppState :=
  ⟨⟨some "k", some ⟨"gemini-2.5-flash", DEFAULT_SYSTEM_INSTRUCTION, []⟩,
    "gemini-2.5-flash", some "k", none⟩,
   [welcomeMsg], 0⟩

theorem claim_C9_witness :
    (jsTrim "  " = "") ∧
    sendStep appW ⟨false, true, "  ", [], none⟩ = (appW, none, []) :=
  ⟨by decide, claim_C9 appW ⟨false, true, "  ", [], none⟩ (by decide) rfl⟩

/-- C10: when the prompt-enhancement response carries no text (the field is
absent or the empty string), `enhancePrompt` returns the original input
unchanged (`response.text || input`). -/
theorem claim_C10 (responseText : Option String) (input : String)
    (h : responseText = none ∨ responseText = some "") :
    enhancePrompt responseText input = input := by
  rcases h with h | h <;> subst h <;> simp [enhancePrompt, jsOrElse]

theorem claim_C10_witness :
    ((some "" : Option String) = none ∨ (some "" : Option String) = some "") ∧
    enhancePrompt (some "") "draw a cat" = "draw a cat" :=
  ⟨Or.inr rfl, claim_C10 (some "") "draw a cat" (Or.inr rfl)⟩

/-- C5: for a chat/code send carrying at least one attachment (the send
pipeline always passes the trimmed user text, captured by the hypothesis
`jsTrim message = message`), the payload is a parts array consisting of a
text part exactly when the text is non-empty, followed by one inline-data
part per attachment, in the attachments' order, each tagged with that
attachment's MIME type. -/
theorem claim_C5 (message : String) (atts : List Attachment)
    (hne : atts ≠ []) (htrim : jsTrim message = message) :
    buildMessageContent message atts =
      .parts ((if message ≠ "" then [.text message] else []) ++
              atts.map (fun a => .inlineData a.mimeType a.data)) := by
  simp [buildMessageContent, hne, htrim]

theorem claim_C5_witness :
    ([(⟨.image, "image/png", "AAAA", "a.png"⟩ : Attachment)] ≠ []) ∧
    (jsTrim "" = "") ∧
    buildMessageContent "" [⟨.image, "image/png", "AAAA", "a.png"⟩] =
      .parts [.inlineData "image/png" "AAAA"] :=
  ⟨by decide, by decide,
   (claim_C5 "" [⟨.image, "image/png", "AAAA", "a.png"⟩] (by decide) (by decide)).trans
     (by decide)⟩

/-- Helper: a `done` operation ends the polling loop at once. -/
theorem pollVideo_done (op : VideoOp) (polls : List VideoOp) (h : op.done = true) :
    pollVideo op polls = some (op, 1, 0) := by
  cases polls <;> simp [pollVideo, h]

/-- Helper: a not-yet-`done` operation defers to the next poll response. -/
theorem pollVideo_notdone (op x : VideoOp) (xs : List VideoOp) (h : op.done = false) :
    pollVideo op (x :: xs) =
      match pollVideo x xs with
      | some (f, c, p) => some (f, c + 1, p + 1)
      | none => none := by
  simp [pollVideo, h]

/-- Helper: on an observation sequence of `N` not-done reports followed by a
done report, the polling loop performs `N + 1` checks and `N` poll calls and
returns the done operation. -/
theorem pollVideoSeq_shape (falseOps : List VideoOp) (dop : VideoOp) (rest : List VideoOp)
    (hf : ∀ o ∈ falseOps, o.done = false) (hd : dop.done = true) :
    pollVideoSeq (falseOps ++ dop :: rest) =
      some (dop, falseOps.length + 1, falseOps.length) := by
  induction falseOps with
  | nil => simpa [pollVideoSeq] using pollVideo_done dop rest hd
  | cons f fs ih =>
    have hfd : f.done = false := hf f (by simp)
    have ih' := ih (fun o ho => hf o (by simp [ho]))
    cases fs with
    | nil =>
      simp only [pollVideoSeq, List.nil_append] at ih'
      simp [pollVideoSeq, pollVideo_notdone f dop rest hfd, ih']
    | cons g gs =>
      simp only [pollVideoSeq, List.cons_append] at ih'
      simp [pollVideoSeq, List.cons_append,
            pollVideo_notdone f g (gs ++ dop :: rest) hfd, ih']

/-- C4: for a video job that reports `done=false` for `N` polls and then
`done=true` with a result URI (a truthy one: `if (!videoUri)` treats the
empty string like an absent URI), `generateVideoContent` performs exactly
`N + 1` status checks (hence `N` poll calls) and exactly one download
attempt, whatever the download outcome. -/
theorem claim_C4 (falseOps rest : List VideoOp) (dop : VideoOp) (u : String)
    (fetchOk : Bool) (blob : String) (toB64 : String → String) (now : Nat)
    (hf : ∀ o ∈ falseOps, o.done = false) (hd : dop.done = true)
    (hu : dop.uri = some u) (hne : u ≠ "") :
    ∃ r, generateVideoContent (falseOps ++ dop :: rest) fetchOk blob toB64 now =
      some (r, falseOps.length + 1, falseOps.length, 1) := by
  have h := pollVideoSeq_shape falseOps dop rest hf hd
  refine ⟨if fetchOk then
    .ok ⟨"Video generated successfully.",
         [⟨.video, "video/mp4", toB64 blob,
           "generated-video-" ++ toString now ++ ".mp4"⟩]⟩
    else .error .download, ?_⟩
  cases fetchOk <;> simp [generateVideoContent, h, jsFalsy, hu, hne]

theorem claim_C4_witness :
    ((∀ o ∈ [(⟨false, none⟩ : VideoOp), ⟨false, none⟩], o.done = false) ∧
     (⟨true, some "u"⟩ : VideoOp).done = true ∧
     (⟨true, some "u"⟩ : VideoOp).uri = some "u" ∧ "u" ≠ "") ∧
    ∃ r, generateVideoContent [⟨false, none⟩, ⟨false, none⟩, ⟨true, some "u"⟩]
        true "blobdata" (fun s => s) 7 = some (r, 3, 2, 1) :=
  ⟨⟨by decide, by decide, by decide, by decide⟩,
   claim_C4 [⟨false, none⟩, ⟨false, none⟩] [] ⟨true, some "u"⟩ "u" true "blobdata"
     (fun s => s) 7 (by decide) (by decide) (by decide) (by decide)⟩

/-- C7: once the polling loop completes, `generateVideoContent` fails with
the video-generation error when no result URI is present — the URI field
absent or the empty string, both falsy under `if (!videoUri)` — attempting
no download; with a truthy URI it fails with the video-download error when
the fetch of the result binary does not succeed, and otherwise returns the
normalized result whose single attachment is the downloaded,
base64-encoded video. -/
theorem claim_C7 (seq : List VideoOp) (f : VideoOp) (c p : Nat)
    (fetchOk : Bool) (blob : String) (toB64 : String → String) (now : Nat)
    (hp : pollVideoSeq seq = some (f, c, p)) :
    (jsFalsy f.uri = true →
      generateVideoContent seq fetchOk blob toB64 now =
        some (.error .generation, c, p, 0)) ∧
    (∀ u, f.uri = some u → u ≠ "" → fetchOk = false →
      generateVideoContent seq fetchOk blob toB64 now =
        some (.error .download, c, p, 1)) ∧
    (∀ u, f.uri = some u → u ≠ "" → fetchOk = true →
      generateVideoContent seq fetchOk blob toB64 now =
        some (.ok ⟨"Video generated successfully.",
                   [⟨.video, "video/mp4", toB64 blob,
                     "generated-video-" ++ toString now ++ ".mp4"⟩]⟩, c, p, 1)) := by
  refine ⟨?_, ?_, ?_⟩
  · intro hu; simp [generateVideoContent, hp, hu]
  · intro u hu hne hfk; subst hfk; simp [generateVideoContent, hp, jsFalsy, hu, hne]
  · intro u hu hne hfk; subst hfk; simp [generateVideoContent, hp, jsFalsy, hu, hne]

theorem claim_C7_witness :
    (pollVideoSeq [(⟨true, some ""⟩ : VideoOp)] = some (⟨true, some ""⟩, 1, 0)) ∧
    (jsFalsy (⟨true, some ""⟩ : VideoOp).uri = true) ∧
    generateVideoContent [⟨true, some ""⟩] true "b" (fun s => s) 3 =
      some (.error .generation, 1, 0, 0) := by
  refine ⟨by decide, by decide, ?_⟩
  exact (claim_C7 [⟨true, some ""⟩] ⟨true, some ""⟩ 1 0 true "b" (fun s => s) 3
    (by decide)).1 (by decide)

/-- Helper: while the loop is live (flag clear, not broken) and the message
mirrors the buffer, consuming chunks appends every non-empty delta to both,
leaving the loop live. -/
theorem runChunks_live (ts : List String) :
    ∀ b : String, runChunks ⟨b, b, true, false, false⟩ ts =
      ⟨b ++ concatAll (ts.filter (fun t => t ≠ "")),
       b ++ concatAll (ts.filter (fun t => t ≠ "")), true, false, false⟩ := by
  induction ts with
  | nil => intro b; simp [runChunks, concatAll]
  | cons t ts ih =>
    intro b
    by_cases ht : t = ""
    · subst ht
      have hc : chunkStep ⟨b, b, true, false, false⟩ "" = ⟨b, b, true, false, false⟩ := by
        simp [chunkStep]
      rw [runChunks, hc, ih b]
      simp [concatAll]
    · have hc : chunkStep ⟨b, b, true, false, false⟩ t = ⟨b ++ t, b ++ t, true, false, false⟩ := by
        simp [chunkStep, ht]
      rw [runChunks, hc, ih (b ++ t)]
      simp [ht, concatAll, String.append_assoc]

/-- Helper: once the cancellation flag is set, consuming further chunks
never touches the buffer, the message text, or the streaming flag. -/
theorem runChunks_flagged (ts : List String) :
    ∀ st : StreamSt, st.flag = true →
      (runChunks st ts).buf = st.buf ∧
      (runChunks st ts).msgText = st.msgText ∧
      (runChunks st ts).streaming = st.streaming ∧
      (runChunks st ts).flag = true := by
  induction ts with
  | nil => intro st h; simp [runChunks, h]
  | cons t ts ih =>
    intro st h
    have hstep : (chunkStep st t).buf = st.buf ∧ (chunkStep st t).msgText = st.msgText ∧
        (chunkStep st t).streaming = st.streaming ∧ (chunkStep st t).flag = true := by
      by_cases hb : st.broken = true
      · simp [chunkStep, hb, h]
      · simp [chunkStep, hb, h]
    obtain ⟨h1, h2, h3, h4⟩ := ih (chunkStep st t) hstep.2.2.2
    rw [runChunks, h1, h2, h3, hstep.1, hstep.2.1, hstep.2.2.1]
    exact ⟨rfl, rfl, rfl, h4⟩

/-- C3: for a streaming send cancelled mid-stream — the chunks `pre` are
consumed, `handleStopGeneration` sets the flag at a suspension point, then
the chunks `post` arrive — the turn's buffer equals the concatenation of the
non-empty deltas received strictly before the flag was observed, the visible
text equals that buffer followed by the stopped marker, no chunk of `post`
is applied, the message leaves its streaming state, and the run completes
without any error path (the model is a total function). -/
theorem claim_C3 (pre post : List String) :
    (runStream pre post).msgText =
      concatAll (pre.filter (fun t => t ≠ "")) ++ " [Stopped]" ∧
    (runStream pre post).buf = concatAll (pre.filter (fun t => t ≠ "")) ∧
    (runStream pre post).streaming = false ∧
    (runStream pre post).flag = true := by
  have h1 := runChunks_live pre ""
  simp only [String.empty_append] at h1
  have hstop : stopStep (runChunks initStream pre) =
      ⟨concatAll (pre.filter (fun t => t ≠ "")),
       concatAll (pre.filter (fun t => t ≠ "")) ++ " [Stopped]", false, true, false⟩ := by
    rw [show initStream = ⟨"", "", true, false, false⟩ from rfl, h1]
    simp [stopStep]
  obtain ⟨hb, hm, hs, hf⟩ := runChunks_flagged post
    ⟨concatAll (pre.filter (fun t => t ≠ "")),
     concatAll (pre.filter (fun t => t ≠ "")) ++ " [Stopped]", false, true, false⟩ rfl
  refine ⟨?_, ?_, ?_, ?_⟩
  · unfold runStream
    rw [hstop]
    exact hm
  · unfold runStream
    rw [hstop]
    exact hb
  · rfl
  · unfold runStream
    rw [hstop]
    exact hf

/-- The key the next `getAiClient` call binds a client to (if any). -/
def boundClientOf : Except GErr (String × ServiceState) → Option String
  | .ok (c, _) => some c
  | .error _ => none

def stC : ServiceState :=
  ⟨some "old", none, "gemini-2.5-flash", some "old", some "envkey"⟩

/-- C8 counterexample: starting from a state with a cached client, local key
`"old"` and environment key `"envkey"`, calling `setStoredApiKey("")` and
then `getAiClient` does construct a client — but it is bound to `"envkey"`
(the stored empty string is falsy and falls through to the environment
credential), not to the argument `k = ""`.  This refutes, at the concrete
input `k = ""`, the claim that the next `getAiClient` call constructs a
client bound to `k`. -/
theorem claim_C8_counterexample :
    boundClientOf (getAiClient (setStoredApiKey stC "")) ≠ some "" ∧
    boundClientOf (getAiClient (setStoredApiKey stC "")) = some "envkey" := by
  constructor <;> decide

/-- C8 (amended): `getAiClient` fails — necessarily with the
missing-credential error — exactly when no cached client exists and the
credential store resolves empty, and otherwise returns a client (the cached
one when present); `setStoredApiKey(k)` always invalidates the cached
client, and for every non-empty `k` the next `getAiClient` call constructs
a client bound to `k` (for empty `k` the store falls back to the
environment credential, as the counterexample shows). -/
theorem claim_C8 :
    (∀ st e, getAiClient st = .error e →
      e = .missingKey ∧ st.aiClient = none ∧ getStoredApiKey st = "") ∧
    (∀ st, st.aiClient = none → getStoredApiKey st = "" →
      getAiClient st = .error .missingKey) ∧
    (∀ st c, st.aiClient = some c → getAiClient st = .ok (c, st)) ∧
    (∀ st k, (setStoredApiKey st k).aiClient = none) ∧
    (∀ st k, k ≠ "" →
      getAiClient (setStoredApiKey st k) =
        .ok (k, ⟨some k, st.chatSession, st.currentModel, some k, st.envKey⟩)) := by
  refine ⟨?_, ?_, ?_, ?_, ?_⟩
  · intro st e h
    cases hA : st.aiClient with
    | some c => simp [getAiClient, hA] at h
    | none =>
      by_cases hk : getStoredApiKey st = ""
      · simp [getAiClient, hA, hk] at h
        exact ⟨h.symm, rfl, hk⟩
      · simp [getAiClient, hA, hk] at h
  · intro st h1 h2; simp [getAiClient, h1, h2]
  · intro st c h; simp [getAiClient, h]
  · intro st k; simp [setStoredApiKey]
  · intro st k hk
    have hkey : jsOrElse (some k) (jsOrElse st.envKey "") = k := by
      simp [jsOrElse, hk]
    simp [getAiClient, setStoredApiKey, getStoredApiKey, hkey, hk]

theorem claim_C8_witness :
    ("newkey" ≠ "") ∧
    getAiClient (setStoredApiKey ⟨some "old", none, "gemini-2.5-flash", some "old", none⟩
        "newkey") =
      .ok ("newkey", ⟨some "newkey", none, "gemini-2.5-flash", some "newkey", none⟩) :=
  ⟨by decide,
   claim_C8.2.2.2.2 ⟨some "old", none, "gemini-2.5-flash", some "old", none⟩ "newkey"
     (by decide)⟩

/-- Helper: with a cached client or a non-empty stored key, `getAiClient`
succeeds, caches the client, and leaves every other field unchanged. -/
theorem getAiClient_ok_of_keyAvail (st : ServiceState) (h : keyAvail st = true) :
    ∃ c st', getAiClient st = .ok (c, st') ∧ st'.aiClient = some c ∧
      st'.chatSession = st.chatSession ∧ st'.currentModel = st.currentModel ∧
      st'.localKey = st.localKey ∧ st'.envKey = st.envKey := by
  cases hA : st.aiClient with
  | some c => exact ⟨c, st, by simp [getAiClient, hA], hA, rfl, rfl, rfl, rfl⟩
  | none =>
    have hk : ¬ getStoredApiKey st = "" := by
      simp [keyAvail, hA] at h
      exact h
    exact ⟨getStoredApiKey st, { st with aiClient := some (getStoredApiKey st) },
      by simp [getAiClient, hA, hk], rfl, rfl, rfl, rfl, rfl⟩

/-- Helper: `initializeChat` under an available credential creates exactly
the matched session, stores it, records the model, and keeps the
credential available. -/
theorem initializeChat_ok (st : ServiceState) (m : String) (h : List GTurn)
    (hk : keyAvail st = true) :
    ∃ st', initializeChat st m h =
        (.ok (⟨m, instrFor m, h⟩, st'), [.createSession m (instrFor m) h]) ∧
      st'.chatSession = some ⟨m, instrFor m, h⟩ ∧ st'.currentModel = m ∧
      keyAvail st' = true ∧ st'.localKey = st.localKey ∧ st'.envKey = st.envKey := by
  obtain ⟨c, stA, hA, hAc, _, _, hAl, hAe⟩ := getAiClient_ok_of_keyAvail st hk
  exact ⟨{ stA with chatSession := some ⟨m, instrFor m, h⟩, currentModel := m },
    by simp [initializeChat, hA], rfl, rfl, by simp [keyAvail, hAc],
    by simpa using hAl, by simpa using hAe⟩

/-- Helper: `initializeChat` fails only with the missing-key error, only
from a state with no cached client and an empty stored key, and then issues
no backend call. -/
theorem initializeChat_error (st : ServiceState) (m : String) (h : List GTurn)
    (e : GErr) (l : List BCall)
    (he : initializeChat st m h = (.error e, l)) :
    e = .missingKey ∧ st.aiClient = none ∧ getStoredApiKey st = "" ∧ l = [] := by
  cases hA : st.aiClient with
  | some c => simp [initializeChat, getAiClient, hA] at he
  | none =>
    by_cases hkey : getStoredApiKey st = ""
    · simp [initializeChat, getAiClient, hA, hkey] at he
      exact ⟨he.1.symm, rfl, hkey, he.2⟩
    · simp [initializeChat, getAiClient, hA, hkey] at he

/-- Helper: a missing credential makes `initializeChat` fail outright. -/
theorem initializeChat_error_of (st : ServiceState) (m : String) (h : List GTurn)
    (hA : st.aiClient = none) (hkey : getStoredApiKey st = "") :
    initializeChat st m h = (.error .missingKey, []) := by
  simp [initializeChat, getAiClient, hA, hkey]

/-- C2: `getChatSession` implements the spec's `ensureSession` state
machine: called with the current session's model it returns that session
with the state unchanged and no backend call (idempotent); called with a
different model under an available credential it creates a new session on
the desired model seeded with the exported history when export succeeds
(length, content and order preserved by the list equality) and with the
empty history when export fails, failing outward in neither case; and any
error it ever propagates is the missing-credential error, arising exactly
when no client is cached and the stored key resolves empty. -/
theorem claim_C2 :
    (∀ st eo m s, st.chatSession = some s → st.currentModel = m →
      getChatSession st eo m = (.ok (s, st), [])) ∧
    (∀ st m s, st.chatSession = some s → st.currentModel ≠ m → keyAvail st = true →
      ∃ st', getChatSession st true m =
          (.ok (⟨m, instrFor m, s.history⟩, st'),
           [.createSession m (instrFor m) s.history]) ∧
        st'.chatSession = some ⟨m, instrFor m, s.history⟩ ∧ st'.currentModel = m) ∧
    (∀ st m s, st.chatSession = some s → st.currentModel ≠ m → keyAvail st = true →
      ∃ st', getChatSession st false m =
          (.ok (⟨m, instrFor m, []⟩, st'), [.createSession m (instrFor m) []]) ∧
        st'.chatSession = some ⟨m, instrFor m, []⟩ ∧ st'.currentModel = m) ∧
    (∀ st eo m e l, getChatSession st eo m = (.error e, l) →
      e = .missingKey ∧ st.aiClient = none ∧ getStoredApiKey st = "") := by
  refine ⟨?_, ?_, ?_, ?_⟩
  · intro st eo m s hs hm
    simp [getChatSession, hs, hm]
  · intro st m s hs hm hk
    obtain ⟨st', hi, h1, h2, _, _, _⟩ := initializeChat_ok st m s.history hk
    exact ⟨st', by simp [getChatSession, hs, hm, getHistoryM, hi], h1, h2⟩
  · intro st m s hs hm hk
    obtain ⟨st', hi, h1, h2, _, _, _⟩ := initializeChat_ok st m [] hk
    exact ⟨st', by simp [getChatSession, hs, hm, getHistoryM, hi], h1, h2⟩
  · intro st eo m e l hgc
    cases hs : st.chatSession with
    | none =>
      simp only [getChatSession, hs] at hgc
      obtain ⟨h1, h2, h3, _⟩ := initializeChat_error st m [] e l hgc
      exact ⟨h1, h2, h3⟩
    | some s =>
      by_cases hm : st.currentModel = m
      · simp [getChatSession, hs, hm] at hgc
      · cases eo with
        | false =>
          simp only [getChatSession, hs, if_pos hm, getHistoryM, Bool.false_eq_true,
            if_false] at hgc
          obtain ⟨h1, h2, h3, _⟩ := initializeChat_error st m [] e l hgc
          exact ⟨h1, h2, h3⟩
        | true =>
          simp only [getChatSession, hs, if_pos hm, getHistoryM, if_true] at hgc
          rcases hI : initializeChat st m s.history with ⟨r1, l1⟩
          rw [hI] at hgc
          cases r1 with
          | ok p => simp at hgc
          | error e1 =>
            obtain ⟨_, hA, hkey, _⟩ := initializeChat_error st m s.history e1 l1 hI
            rw [initializeChat_error_of st m [] hA hkey] at hgc
            simp at hgc
            exact ⟨hgc.1.symm, hA, hkey⟩

def sW : Session := ⟨"gemini-2.5-flash", DEFAULT_SYSTEM_INSTRUCTION, [⟨.user, "hi"⟩]⟩

def stW2 : ServiceState := ⟨some "k", some sW, "gemini-2.5-flash", some "k", none⟩

theorem claim_C2_witness :
    stW2.chatSession = some sW ∧ stW2.currentModel = "gemini-2.5-flash" ∧
    getChatSession stW2 true "gemini-2.5-flash" = (.ok (sW, stW2), []) :=
  ⟨rfl, rfl, claim_C2.1 stW2 true "gemini-2.5-flash" sW rfl rfl⟩

/-- Pairing invariant of §3: the active session's system instruction is the
one matched to its model identifier. -/
def pairingInv (st : ServiceState) : Prop :=
  ∀ s, st.chatSession = some s → s.systemInstruction = instrFor s.model

/-- Helper: any session successfully produced by `initializeChat` is the
matched-pair session for the requested model, and becomes active. -/
theorem initializeChat_ok_shape (st : ServiceState) (m : String) (h : List GTurn)
    (s : Session) (st' : ServiceState) (l : List BCall)
    (hi : initializeChat st m h = (.ok (s, st'), l)) :
    s = ⟨m, instrFor m, h⟩ ∧ st'.chatSession = some s ∧ st'.currentModel = m := by
  cases hA : getAiClient st with
  | error e => simp [initializeChat, hA] at hi
  | ok p =>
    obtain ⟨c, stA⟩ := p
    simp only [initializeChat, hA, Prod.mk.injEq, Except.ok.injEq] at hi
    obtain ⟨⟨h1, h2⟩, _⟩ := hi
    subst h1
    subst h2
    exact ⟨rfl, rfl, rfl⟩

/-- Helper: any session successfully returned by `getChatSession` is the
active session of the returned state, and is a matched pair whenever the
incoming active session (if any) was. -/
theorem getChatSession_pairing (st : ServiceState) (eo : Bool) (m : String)
    (s' : Session) (st' : ServiceState) (l : List BCall)
    (hp : pairingInv st)
    (hgc : getChatSession st eo m = (.ok (s', st'), l)) :
    st'.chatSession = some s' ∧ s'.systemInstruction = instrFor s'.model := by
  cases hs : st.chatSession with
  | none =>
    simp only [getChatSession, hs] at hgc
    obtain ⟨h1, h2, _⟩ := initializeChat_ok_shape st m [] s' st' l hgc
    exact ⟨h2, by rw [h1]⟩
  | some s =>
    by_cases hm : st.currentModel = m
    · simp only [getChatSession, hs, hm, ne_eq, not_true_eq_false, if_false,
        Prod.mk.injEq, Except.ok.injEq] at hgc
      obtain ⟨⟨h1, h2⟩, _⟩ := hgc
      subst h1
      subst h2
      exact ⟨hs, hp s hs⟩
    · cases eo with
      | false =>
        simp only [getChatSession, hs, if_pos hm, getHistoryM, Bool.false_eq_true,
          if_false] at hgc
        obtain ⟨h1, h2, _⟩ := initializeChat_ok_shape st m [] s' st' l hgc
        exact ⟨h2, by rw [h1]⟩
      | true =>
        simp only [getChatSession, hs, if_pos hm, getHistoryM, if_true] at hgc
        rcases hI : initializeChat st m s.history with ⟨r1, l1⟩
        rw [hI] at hgc
        cases r1 with
        | ok p =>
          obtain ⟨s1, st1⟩ := p
          simp only [Prod.mk.injEq, Except.ok.injEq] at hgc
          obtain ⟨⟨h1, h2⟩, _⟩ := hgc
          subst h1
          subst h2
          obtain ⟨h1, h2, _⟩ := initializeChat_ok_shape st m s.history s1 st1 l1 hI
          exact ⟨h2, by rw [h1]⟩
        | error e1 =>
          obtain ⟨_, hA, hkey, _⟩ := initializeChat_error st m s.history e1 l1 hI
          rw [initializeChat_error_of st m [] hA hkey] at hgc
          simp at hgc

/-- Helper: unfolding equation of `runEvents` on a cons cell. -/
theorem runEvents_cons (st : AppState) (e : SendEv) (evs : List SendEv) :
    runEvents st (e :: evs) =
      ((runEvents (sendStep st e).1 evs).1,
       (sendStep st e).2.1.toList ++ (runEvents (sendStep st e).1 evs).2) := by
  rcases hstep : sendStep st e with ⟨st', r, c⟩
  rcases hrun : runEvents st' evs with ⟨fin, rs⟩
  simp [runEvents, hstep, hrun]

/-- The history seeded at mount: the valid (non-error, non-welcome) part of
the initial messages when it is non-empty, and empty otherwise. -/
def mountHist (init : List Msg) : List GTurn :=
  if init ≠ [] ∧ validHistory init ≠ [] then historyForGemini (validHistory init) else []

/-- Helper: the seeded history is always the projection of the filtered
initial messages (in the degenerate branches both sides are empty). -/
theorem mountHist_eq (init : List Msg) :
    mountHist init = historyForGemini (validHistory init) := by
  unfold mountHist
  by_cases h1 : init = []
  · subst h1; simp [validHistory, historyForGemini]
  · by_cases h2 : validHistory init = []
    · simp [h1, h2, historyForGemini]
    · simp [h1, h2]

/-- Helper: the service state after mount is the result of one
`initializeChat` on the default model with the seeded history (or the
untouched incoming state when initialization failed). -/
theorem mount_svc (init : List Msg) (st0 : ServiceState) :
    (mount init st0).svc =
      match (initializeChat st0 "gemini-2.5-flash" (mountHist init)).1 with
      | .ok (_, st') => st'
      | .error _ => st0 := by
  unfold mount mountHist
  by_cases h1 : init = []
  · subst h1; simp
  · by_cases h2 : validHistory init = []
    · simp [h1, h2]
    · simp [h1, h2]

/-- Helper: with an available credential, mount activates a default-model
session seeded with the filtered initial history. -/
theorem mount_spec (init : List Msg) (st0 : ServiceState) (hk : keyAvail st0 = true) :
    (mount init st0).svc.chatSession =
      some ⟨"gemini-2.5-flash", instrFor "gemini-2.5-flash",
            historyForGemini (validHistory init)⟩ ∧
    keyAvail (mount init st0).svc = true := by
  obtain ⟨st', hi, h1, h2, h3, _, _⟩ :=
    initializeChat_ok st0 "gemini-2.5-flash" (mountHist init) hk
  rw [mount_svc, hi]
  rw [mountHist_eq] at h1
  exact ⟨h1, h3⟩

/-- Helper: mount establishes the model/instruction pairing invariant from
the module's pristine state. -/
theorem mount_pairing (init : List Msg) (st0 : ServiceState)
    (h0 : st0.chatSession = none) : pairingInv (mount init st0).svc := by
  rw [mount_svc]
  rcases hI : initializeChat st0 "gemini-2.5-flash" (mountHist init) with ⟨r, l⟩
  cases r with
  | ok p =>
    obtain ⟨s1, st1⟩ := p
    obtain ⟨h1, h2, _⟩ := initializeChat_ok_shape _ _ _ _ _ _ hI
    intro s hs
    rw [h2] at hs
    obtain rfl : s1 = s := Option.some.inj hs
    rw [h1]
  | error e1 =>
    intro s hs
    rw [h0] at hs
    cases hs

/-- Helper: every send preserves the model/instruction pairing invariant. -/
theorem sendStep_pairing (st : AppState) (e : SendEv)
    (hp : pairingInv st.svc) : pairingInv (sendStep st e).1.svc := by
  by_cases hg : jsTrim e.text = "" ∧ e.atts = []
  · rw [sendStep_guard st e hg]
    exact hp
  · rcases hgc : getChatSession st.svc e.exportOk (modelFor e.isCode) with ⟨r, calls⟩
    cases r with
    | error err =>
      simp only [sendStep, if_neg hg, hgc]
      exact hp
    | ok p =>
      obtain ⟨sN, svc'⟩ := p
      obtain ⟨h1, h2⟩ := getChatSession_pairing _ _ _ _ _ _ hp hgc
      cases hr : e.reply with
      | some r =>
        simp only [sendStep, if_neg hg, hgc, hr]
        intro s hs
        simp only [Option.some.injEq] at hs
        rw [← hs]
        exact h2
      | none =>
        simp only [sendStep, if_neg hg, hgc, hr]
        intro s hs
        rw [h1] at hs
        obtain rfl : sN = s := Option.some.inj hs
        exact h2

/-- Helper: the pairing invariant is preserved by any sequence of sends. -/
theorem runEvents_pairing (evs : List SendEv) :
    ∀ st : AppState, pairingInv st.svc → pairingInv ((runEvents st evs).1).svc := by
  induction evs with
  | nil => intro st hp; exact hp
  | cons e evs ih =>
    intro st hp
    rw [runEvents_cons]
    exact ih (sendStep st e).1 (sendStep_pairing st e hp)

/-- C6: `initializeChat` always creates the matched model/instruction pair
(the code-tuned model gets the code instruction, every other model the
default instruction); `handleSend` selects the code-tuned model exactly in
code mode; and the pairing is an invariant of the whole UI state machine:
it holds after mount (every session creation) and after any sequence of
chat/code sends (hence after every model switch). -/
theorem claim_C6 :
    (∀ st m h s st' l, initializeChat st m h = (.ok (s, st'), l) →
      s.model = m ∧
      s.systemInstruction =
        (if m = "gemini-3-pro-preview" then CODE_SYSTEM_INSTRUCTION
         else DEFAULT_SYSTEM_INSTRUCTION) ∧
      st'.chatSession = some s) ∧
    (∀ isCode, modelFor isCode = "gemini-3-pro-preview" ↔ isCode = true) ∧
    (∀ init st0 evs, st0.chatSession = none →
      pairingInv (runEvents (mount init st0) evs).1.svc) := by
  refine ⟨?_, ?_, ?_⟩
  · intro st m h s st' l hi
    obtain ⟨h1, h2, _⟩ := initializeChat_ok_shape st m h s st' l hi
    exact ⟨by rw [h1], by rw [h1, show Session.systemInstruction ⟨m, instrFor m, h⟩ = instrFor m from rfl, instrFor], h2⟩
  · intro isCode
    cases isCode <;> simp [modelFor]
  · intro init st0 evs h0
    exact runEvents_pairing evs (mount init st0) (mount_pairing init st0 h0)

def stI : ServiceState := ⟨some "k", none, "gemini-2.5-flash", some "k", none⟩

theorem claim_C6_witness :
    initializeChat stI "gemini-3-pro-preview" [] =
      (.ok (⟨"gemini-3-pro-preview", CODE_SYSTEM_INSTRUCTION, []⟩,
            ⟨some "k", some ⟨"gemini-3-pro-preview", CODE_SYSTEM_INSTRUCTION, []⟩,
             "gemini-3-pro-preview", some "k", none⟩),
       [.createSession "gemini-3-pro-preview" CODE_SYSTEM_INSTRUCTION []]) ∧
    ((⟨"gemini-3-pro-preview", CODE_SYSTEM_INSTRUCTION, []⟩ : Session).model =
        "gemini-3-pro-preview" ∧
     (⟨"gemini-3-pro-preview", CODE_SYSTEM_INSTRUCTION, []⟩ : Session).systemInstruction =
        (if "gemini-3-pro-preview" = "gemini-3-pro-preview" then CODE_SYSTEM_INSTRUCTION
         else DEFAULT_SYSTEM_INSTRUCTION) ∧
     (⟨some "k", some ⟨"gemini-3-pro-preview", CODE_SYSTEM_INSTRUCTION, []⟩,
       "gemini-3-pro-preview", some "k", none⟩ : ServiceState).chatSession =
        some ⟨"gemini-3-pro-preview", CODE_SYSTEM_INSTRUCTION, []⟩) := by
  have hEq : initializeChat stI "gemini-3-pro-preview" [] =
      (.ok (⟨"gemini-3-pro-preview", CODE_SYSTEM_INSTRUCTION, []⟩,
            ⟨some "k", some ⟨"gemini-3-pro-preview", CODE_SYSTEM_INSTRUCTION, []⟩,
             "gemini-3-pro-preview", some "k", none⟩),
       [.createSession "gemini-3-pro-preview" CODE_SYSTEM_INSTRUCTION []]) := by
    simp [initializeChat, getAiClient, stI, instrFor]
  exact ⟨hEq, claim_C6.1 stI "gemini-3-pro-preview" [] _ _ _ hEq⟩

/-- Helper: `getChatSession` with a successful export and an available
credential: on the same model it is the identity; on a different model it
activates a session carrying exactly the exported history. -/
theorem getChatSession_spec_export (st : ServiceState) (m : String) (s : Session)
    (hk : keyAvail st = true) (hs : st.chatSession = some s) :
    ∃ sN st' calls, getChatSession st true m = (.ok (sN, st'), calls) ∧
      st'.chatSession = some sN ∧ keyAvail st' = true ∧
      sN.history = s.history := by
  by_cases hm : st.currentModel = m
  · exact ⟨s, st, [], by simp [getChatSession, hs, hm], hs, hk, rfl⟩
  · obtain ⟨st', hi, h1, _, h3, _, _⟩ := initializeChat_ok st m s.history hk
    exact ⟨⟨m, instrFor m, s.history⟩, st', [.createSession m (instrFor m) s.history],
      by simp [getChatSession, hs, hm, getHistoryM, hi], h1, h3, rfl⟩

/-- Helper: one guard-passing send with export success — the switch-replay
record is the active session's full history exactly when the selected model
differs from the current one, and the resulting active session carries the
old history extended with the accepted turn pair (on stream success) or
unchanged (on stream failure); the credential stays available. -/
theorem sendStep_replay (st : AppState) (e : SendEv) (s : Session)
    (hk : keyAvail st.svc = true) (hs : st.svc.chatSession = some s)
    (he : e.exportOk = true) (hg : ¬(jsTrim e.text = "" ∧ e.atts = [])) :
    (sendStep st e).2.1 =
      (if st.svc.currentModel ≠ modelFor e.isCode then some (true, s.history) else none) ∧
    keyAvail (sendStep st e).1.svc = true ∧
    ∃ s', (sendStep st e).1.svc.chatSession = some s' ∧
      s'.history = s.history ++
        (match e.reply with
         | some r => [⟨.user, jsTrim e.text⟩, ⟨.model, r⟩]
         | none => []) := by
  obtain ⟨sN, svc', calls, hgc, h1, h2, h3⟩ :=
    getChatSession_spec_export st.svc (modelFor e.isCode) s hk hs
  cases hr : e.reply with
  | some r =>
    refine ⟨?_, ?_, ⟨{ sN with history :=
        sN.history ++ [⟨.user, jsTrim e.text⟩, ⟨.model, r⟩] }, ?_, ?_⟩⟩
    · simp [sendStep, if_neg hg, he, hgc, hr, hs]
    · simp only [sendStep, if_neg hg, he, hgc, hr]
      exact h2
    · simp only [sendStep, if_neg hg, he, hgc, hr]
    · simp only [h3]
  | none =>
    refine ⟨?_, ?_, ⟨sN, ?_, ?_⟩⟩
    · simp [sendStep, if_neg hg, he, hgc, hr, hs]
    · simp only [sendStep, if_neg hg, he, hgc, hr]
      exact h2
    · simp only [sendStep, if_neg hg, he, hgc, hr]
      exact h1
    · simp [h3]

/-- Helper: over any sequence of sends with successful exports, every
switch-replay record equals the session history at entry extended with
exactly the turn pairs accepted during the preceding prefix of sends. -/
theorem runEvents_replays (evs : List SendEv) :
    ∀ (st : AppState) (s : Session),
      keyAvail st.svc = true → st.svc.chatSession = some s →
      (∀ e ∈ evs, e.exportOk = true) →
      ∀ rec ∈ (runEvents st evs).2, rec.1 = true ∧
        ∃ pre suf, evs = pre ++ suf ∧ rec.2 = s.history ++ acceptedOf pre := by
  induction evs with
  | nil =>
    intro st s _ _ _ rec h
    simp [runEvents] at h
  | cons e evs ih =>
    intro st s hk hs hexp rec hrec
    rw [runEvents_cons] at hrec
    by_cases hg : jsTrim e.text = "" ∧ e.atts = []
    · rw [sendStep_guard st e hg] at hrec
      simp only [Option.toList_none, List.nil_append] at hrec
      obtain ⟨h1, pre, suf, heq, hval⟩ :=
        ih st s hk hs (fun x hx => hexp x (List.mem_cons_of_mem e hx)) rec hrec
      refine ⟨h1, e :: pre, suf, by rw [heq, List.cons_append], ?_⟩
      rw [hval]
      simp [acceptedOf, hg.1, hg.2]
    · obtain ⟨hrep, hkA, s', hcs, hhist⟩ :=
        sendStep_replay st e s hk hs (hexp e (List.mem_cons_self e evs)) hg
      rcases List.mem_append.1 hrec with hin | hin
      · rw [hrep] at hin
        by_cases hm : st.svc.currentModel ≠ modelFor e.isCode
        · rw [if_pos hm] at hin
          simp only [Option.toList_some, List.mem_singleton] at hin
          subst hin
          exact ⟨rfl, [], e :: evs, rfl, by simp [acceptedOf]⟩
        · rw [if_neg hm] at hin
          simp at hin
      · obtain ⟨h1, pre, suf, heq, hval⟩ :=
          ih (sendStep st e).1 s' hkA hcs
            (fun x hx => hexp x (List.mem_cons_of_mem e hx)) rec hin
        refine ⟨h1, e :: pre, suf, by rw [heq, List.cons_append], ?_⟩
        rw [hval, hhist, List.append_assoc]
        congr 1
        simp only [acceptedOf, if_neg hg]

/-- C1: over any execution consisting of mount followed by chat/code sends
(the only operations that reach `getChatSession`) under an available
credential, (a) the history seeded at mount excludes every turn flagged as
error and every welcome placeholder, and (b) on every model switch with a
successful export — in either direction, chat-to-code or code-to-chat — the
history replayed into the newly created session equals the filtered seeded
history followed by exactly the turn pairs accepted by the backend in the
preceding sends, in order: each non-excluded prior turn appears exactly
once, none is duplicated and none is lost. -/
theorem claim_C1 (init : List Msg) (st0 : ServiceState) (evs : List SendEv)
    (hk : keyAvail st0 = true) (hexp : ∀ e ∈ evs, e.exportOk = true) :
    (∀ m ∈ validHistory init, m.isError = false ∧ m.id ≠ none) ∧
    ∀ rec ∈ (runEvents (mount init st0) evs).2, rec.1 = true ∧
      ∃ pre suf, evs = pre ++ suf ∧
        rec.2 = historyForGemini (validHistory init) ++ acceptedOf pre := by
  constructor
  · intro m hm
    unfold validHistory at hm
    rw [List.mem_filter] at hm
    have h2 := hm.2
    simp at h2
    exact h2
  · obtain ⟨hcs, hkA⟩ := mount_spec init st0 hk
    exact runEvents_replays evs (mount init st0) _ hkA hcs hexp

def initW : List Msg :=
  [welcomeMsg, ⟨some 100, .user, "hi", false, false⟩,
   ⟨some 101, .model, "hello", false, false⟩, ⟨some 102, .model, "bad", true, false⟩]

def stW0 : ServiceState := ⟨none, none, "gemini-2.5-flash", some "k", none⟩

def evsW : List SendEv :=
  [⟨false, true, "q1", [], some "a1"⟩, ⟨true, true, "q2", [], some "a2"⟩,
   ⟨false, true, "q3", [], some "a3"⟩]

theorem claim_C1_witness :
    keyAvail stW0 = true ∧ (∀ e ∈ evsW, e.exportOk = true) ∧
    ((∀ m ∈ validHistory initW, m.isError = false ∧ m.id ≠ none) ∧
     ∀ rec ∈ (runEvents (mount initW stW0) evsW).2, rec.1 = true ∧
       ∃ pre suf, evsW = pre ++ suf ∧
         rec.2 = historyForGemini (validHistory initW) ++ acceptedOf pre) :=
  ⟨by decide, by decide, claim_C1 initW stW0 evsW (by decide) (by decide)⟩
